import Mathlib

/-!
Verification development for the CoPlanner hackathon-leaderboard scoring
pipeline.  The definitions below are a shallow embedding of the relevant
TypeScript source files:

* `lib/analyzer.ts` — score generation (`getAIScores`, `analyzeRepo`,
  `createPlaceholderScore`);
* `scripts/analyze-local.ts` — the comparative (decimal) variant
  (`analyzeTrack` clamping);
* `lib/github.ts` — the size estimator (`estimateLinesOfCode`);
* `lib/storage.ts` — the score store (`getScores`, `saveScores`,
  `addCommentary`, `getCommentary`);
* `app/api/refresh/route.ts` — the refresh orchestrator (`handleRefresh`,
  `GET`, `POST`).

JavaScript numbers are idealised as exact integers (`Int`) or rationals
(`Rat`); `Math.round x` for the values arising here is `Int.floor (x + 1/2)`.
Effectful calls (GitHub fetch, LLM completion, clock) are passed in as
explicit outcome values, so every function is a pure function of its inputs.
-/

/-- JavaScript truthiness defaulting `v || d` on an optional number:
`undefined`, `null` and `0` select the default. -/
def jsOrInt (v : Option Int) (d : Int) : Int :=
  match v with
  | none => d
  | some x => if x = 0 then d else x

/-- JavaScript truthiness defaulting `v || d` on an optional rational. -/
def jsOrRat (v : Option Rat) (d : Rat) : Rat :=
  match v with
  | none => d
  | some x => if x = 0 then d else x

/-- JavaScript truthiness defaulting `v || d` on an optional string:
`undefined`, `null` and the empty string select the default. -/
def jsOrStr (v : Option String) (d : String) : String :=
  match v with
  | none => d
  | some s => if s = "" then d else s

/-- Model of `Math.round` on a rational (the arguments arising in this code base are
where JS `Math.round x = floor (x + 0.5)`). -/
def jsRound (q : Rat) : Int := Int.floor (q + 1/2)

/-- Fields of the single JSON object extracted from the LLM free-text reply
in `getAIScores` (`lib/analyzer.ts`): each sub-score may be absent, and the
commentary string may be absent. -/
structure ParsedScores where
  problem : Option Int
  solution : Option Int
  execution : Option Int
  commentary : Option String
deriving Repr, DecidableEq

/-- Result shape of `getAIScores` (`interface ScoreResult` in
`lib/analyzer.ts`). -/
structure ScoreResult where
  problem : Int
  solution : Int
  execution : Int
  total : Int
  commentary : String
deriving Repr, DecidableEq

/-- Clamping of one sub-score in `getAIScores`
(`Math.min(5, Math.max(1, parsed.problem || 3))`). -/
def clampScore (v : Option Int) : Int :=
  min 5 (max 1 (jsOrInt v 3))

/-- The pure tail of `getAIScores` (`lib/analyzer.ts` lines 153-159): given
the parsed JSON payload, build the `ScoreResult`.  Note that `total` sums the
raw defaulted values, not the clamped ones. -/
def getAIScores (teamName : String) (parsed : ParsedScores) : ScoreResult :=
  { problem := clampScore parsed.problem
    solution := clampScore parsed.solution
    execution := clampScore parsed.execution
    total := jsOrInt parsed.problem 3 + jsOrInt parsed.solution 3 + jsOrInt parsed.execution 3
    commentary := jsOrStr parsed.commentary (teamName ++ " is making moves!") }

/-- Clamping and rounding of one decimal sub-score in `analyzeTrack`
(`scripts/analyze-local.ts` lines 406-408):
`Math.round(Math.min(5, Math.max(1, evaluation.problem || 3)) * 10) / 10`. -/
def clampScoreDec (v : Option Rat) : Rat :=
  (jsRound (min 5 (max 1 (jsOrRat v 3)) * 10) : Rat) / 10

/-- Total computation of `analyzeTrack` (`scripts/analyze-local.ts` line 409):
`Math.round((problem + solution + execution) * 10) / 10` applied to the
already clamped decimal sub-scores. -/
def analyzeTrackTotal (problem solution execution : Rat) : Rat :=
  (jsRound ((problem + solution + execution) * 10) : Rat) / 10

/-- ScoreRecord shape (`interface TeamScore` in `lib/rubric.ts`).  The two
rank fields are optional in the source and are `none` when never assigned. -/
structure TeamScore where
  teamId : String
  teamName : String
  repo : String
  track : Int
  problem : Int
  solution : Int
  execution : Int
  total : Int
  linesOfCode : Int
  commentary : String
  lastUpdated : String
  previousRank : Option Int := none
  currentRank : Option Int := none
deriving Repr, DecidableEq

/-- Row of the Supabase `scores` table as used by `lib/storage.ts` (the
upsert payload).  There are no rank columns: ranks are never persisted. -/
structure ScoreRow where
  id : String
  team_name : String
  repo : String
  track : Int
  problem : Int
  solution : Int
  execution : Int
  total : Int
  lines_of_code : Int
  commentary : String
  last_updated : String
deriving Repr, DecidableEq

/-- Function `teamIdToUUID` (`lib/storage.ts`): the deterministic uuidv5 digest of the
team identifier.  The SHA-1 based digest itself is not embedded; it is
modeled as an injective tagging, which preserves what the callers rely on:
the map is a function of `teamId` alone and distinct team ids yield distinct
row ids. -/
def teamIdToUUID (teamId : String) : String :=
  "uuid-v5:" ++ teamId

/-- The upsert payload built in `saveScores` (`lib/storage.ts` lines 59-71);
`last_updated` is `score.lastUpdated || new Date().toISOString()` with the
clock value passed in as `now`. -/
def toScoreRow (score : TeamScore) (now : String) : ScoreRow :=
  { id := teamIdToUUID score.teamId
    team_name := score.teamName
    repo := score.repo
    track := score.track
    problem := score.problem
    solution := score.solution
    execution := score.execution
    total := score.total
    lines_of_code := score.linesOfCode
    commentary := score.commentary
    last_updated := if score.lastUpdated = "" then now else score.lastUpdated }

/-- Comparison used for the descending order-by-total select in `getScores`
and for the comparator `(a, b) => b.total - a.total` in `saveScores`:
`a` may precede `b` exactly when `b.total ≤ a.total`. -/
def rowLE (a b : ScoreRow) : Bool := decide (b.total ≤ a.total)

/-- Deterministic model of the ordered select in `getScores`
(`lib/storage.ts` lines 22-25), used to run the pipeline on concrete data.
The real select guarantees only the order-by-total-descending contract
captured by `dbOrderedSelect`: the source performs no client-side sort, so
the database's tie order among equal totals is unspecified; this stable
mergeSort realizes one delivery permitted by that contract. -/
def sortRows (store : List ScoreRow) : List ScoreRow :=
  store.mergeSort rowLE

/-- Contract of the Supabase `order('total', descending)` select: the
delivered rows are some permutation of the table that is sorted descending
by `total`.  Nothing more is guaranteed — in particular no tie order. -/
def dbOrderedSelect (table delivered : List ScoreRow) : Prop :=
  List.Perm delivered table ∧ delivered.Pairwise (fun a b => b.total ≤ a.total)

/-- Function `getScores` (`lib/storage.ts` lines 21-47): read all rows ordered by
total descending and map them to the `TeamScore` interface, assigning
`currentRank := index + 1`.  Note the source maps `teamId: s.id`, i.e. the
stored uuid, and assigns no `previousRank`. -/
def getScores (store : List ScoreRow) : List TeamScore :=
  (sortRows store).enum.map (fun p =>
    { teamId := p.2.id
      teamName := p.2.team_name
      repo := p.2.repo
      track := p.2.track
      problem := p.2.problem
      solution := p.2.solution
      execution := p.2.execution
      total := p.2.total
      linesOfCode := p.2.lines_of_code
      commentary := p.2.commentary
      lastUpdated := p.2.last_updated
      currentRank := some ((p.1 : Int) + 1) })

/-- The row-to-record mapping of `getScores` (`lib/storage.ts` lines 33-46)
applied to whatever row order the database delivers: `currentRank` is
`index + 1` in the delivered order.  `getScores` is this mapping composed
with the deterministic `sortRows` model. -/
def rankDelivered (delivered : List ScoreRow) : List TeamScore :=
  delivered.enum.map (fun p =>
    { teamId := p.2.id
      teamName := p.2.team_name
      repo := p.2.repo
      track := p.2.track
      problem := p.2.problem
      solution := p.2.solution
      execution := p.2.execution
      total := p.2.total
      linesOfCode := p.2.lines_of_code
      commentary := p.2.commentary
      lastUpdated := p.2.last_updated
      currentRank := some ((p.1 : Int) + 1) })

/-- Supabase upsert with conflict target id: replace the row with the same
`id` when one exists, otherwise insert at the end. -/
def upsertRow (store : List ScoreRow) (row : ScoreRow) : List ScoreRow :=
  if store.any (fun r => r.id = row.id) then
    store.map (fun r => if r.id = row.id then row else r)
  else
    store ++ [row]

/-- Comparator of `saveScores` lifted to position-tagged records (the JS sort
is stable, so it is modeled by `mergeSort` over the enumerated list). -/
def scoreLE (a b : Nat × TeamScore) : Bool := decide (b.2.total ≤ a.2.total)

/-- Function `saveScores` (`lib/storage.ts` lines 49-88).  The source sorts the shared
record objects descending by total, sets `score.currentRank = i + 1` through
those shared references (mutating the caller array in place), and upserts a
payload per record (the payload carries no rank fields).  Records are
identified by their position in the caller array: the first component is the
caller array after mutation, the second the new store contents. -/
def saveScores (store : List ScoreRow) (scores : List TeamScore) (now : String) :
    List TeamScore × List ScoreRow :=
  let sortedScores := scores.enum.mergeSort scoreLE
  let mutated := scores.enum.map (fun p =>
    { p.2 with currentRank := some ((sortedScores.findIdx (fun q => q.1 = p.1) : Int) + 1) })
  let newStore := sortedScores.foldl (fun st q => upsertRow st (toScoreRow q.2 now)) store
  (mutated, newStore)

/-- Sample stored row used by concrete witness instances. -/
def sampleRow (id : String) (total : Int) : ScoreRow :=
  { id := id
    team_name := id
    repo := "r"
    track := 1
    problem := 3
    solution := 3
    execution := 3
    total := total
    lines_of_code := 0
    commentary := ""
    last_updated := "t" }

/-- Repository snapshot shape (`interface RepoInfo` in `lib/github.ts`);
the fields used by the scoring path. -/
structure RepoInfo where
  readme : String
  fileTree : List String
  keyFiles : List (String × String)
  recentCommits : List String
  totalSize : Rat
  branches : List String
deriving Repr, DecidableEq

/-- Outcome of the `fetchRepoInfo` call as observed by `analyzeRepo`. -/
inductive FetchOutcome where
  | ok (info : RepoInfo)
  | fail (msg : String)
deriving Repr, DecidableEq

/-- Outcome of the `getAIScores` LLM call and JSON extraction as observed by
`analyzeRepo`: either a parsed payload or a thrown error. -/
inductive AIOutcome where
  | ok (parsed : ParsedScores)
  | fail (msg : String)
deriving Repr, DecidableEq

/-- Allow-list of code-file extensions in `estimateLinesOfCode`
(`lib/github.ts` lines 219-222). -/
def codeExtensions : List String :=
  [".ts", ".tsx", ".js", ".jsx", ".py", ".rs", ".go", ".java",
   ".cpp", ".c", ".h", ".css", ".scss", ".html", ".vue", ".svelte"]

/-- Count of files whose path ends in a code extension
(`fileTree.filter(...)` in `estimateLinesOfCode`). -/
def countCodeFiles (fileTree : List String) : Nat :=
  (fileTree.filter (fun path => codeExtensions.any (fun ext => path.endsWith ext))).length

/-- Function `estimateLinesOfCode` (`lib/github.ts` lines 217-234): the heuristic
line-of-code estimator.  `codeRatio = codeFiles.length / max(fileTree.length, 1)`,
`estimatedLines = Math.round(totalSize * codeRatio / 25)`, floored at
`codeFiles.length * 50`. -/
def estimateLinesOfCode (fileTree : List String) (totalSize : Rat) : Int :=
  let codeLen : Nat := countCodeFiles fileTree
  let codeRatio : Rat := (codeLen : Rat) / (max fileTree.length 1 : Nat)
  let estimatedCodeSize : Rat := totalSize * codeRatio
  let estimatedLines : Int := jsRound (estimatedCodeSize / 25)
  max estimatedLines ((codeLen : Int) * 50)

/-- Size estimator formula as the specification words it:
`max(round(totalBytes * (countOfCodeFiles / max(totalFileCount, 1)) / 25),
countOfCodeFiles * 50)`. -/
def estimateSpecFormula (fileTree : List String) (totalBytes : Rat) : Int :=
  max (jsRound (totalBytes * ((countCodeFiles fileTree : Rat) / (max fileTree.length 1 : Nat)) / 25))
    ((countCodeFiles fileTree : Int) * 50)

/-- Function `createPlaceholderScore` (`lib/analyzer.ts` lines 66-85): the zero-score
record substituted when the repository fetch fails. -/
def createPlaceholderScore (teamId teamName repoUrl : String) (track : Int) (now : String) :
    TeamScore :=
  { teamId := teamId
    teamName := teamName
    repo := repoUrl
    track := track
    problem := 0
    solution := 0
    execution := 0
    total := 0
    linesOfCode := 0
    commentary := "Waiting for " ++ teamName ++ " to push their first commit!"
    lastUpdated := now }

/-- The neutral default `ScoreResult` substituted by `analyzeRepo` when
`getAIScores` throws (`lib/analyzer.ts` lines 42-48). -/
def neutralScores (teamName : String) : ScoreResult :=
  { problem := 3
    solution := 3
    execution := 3
    total := 9
    commentary := teamName ++ " is cooking something interesting! Stay tuned for more analysis." }

/-- Function `analyzeRepo` (`lib/analyzer.ts` lines 17-64) as a pure function of the
two effectful outcomes: a failed repository fetch yields the placeholder
record; a failed LLM call yields the neutral 3/3/3 record; otherwise the
parsed scores are used. -/
def analyzeRepo (teamId teamName repoUrl : String) (track : Int)
    (fetchRes : FetchOutcome) (aiRes : AIOutcome) (now : String) : TeamScore :=
  match fetchRes with
  | .fail _ => createPlaceholderScore teamId teamName repoUrl track now
  | .ok info =>
    let linesOfCode := estimateLinesOfCode info.fileTree info.totalSize
    let scores : ScoreResult :=
      match aiRes with
      | .fail _ => neutralScores teamName
      | .ok parsed => getAIScores teamName parsed
    { teamId := teamId
      teamName := teamName
      repo := repoUrl
      track := track
      problem := scores.problem
      solution := scores.solution
      execution := scores.execution
      total := scores.total
      linesOfCode := linesOfCode
      commentary := scores.commentary
      lastUpdated := now }

/-- Team roster entry (`data/repos.json`, `interface Team` in the refresh
route). -/
structure Team where
  id : String
  name : String
  repo : String
  track : Int
deriving Repr, DecidableEq

/-- Partition into consecutive batches of `batchSize = 5`
(`for (let i = 0; i < teams.length; i += batchSize)` in `handleRefresh`). -/
def batchesOf5 : List Team → List (List Team)
  | [] => []
  | t :: rest => ((t :: rest).take 5) :: batchesOf5 ((t :: rest).drop 5)
termination_by l => l.length
decreasing_by simp; omega

/-- The analysis phase of `handleRefresh` (`app/api/refresh/route.ts` lines
43-51): process batches sequentially, analyzing every team of a batch and
collecting all results.  The fetch and LLM outcomes per team are inputs. -/
def refreshAnalyze (teams : List Team) (fetch : Team → FetchOutcome)
    (ai : Team → AIOutcome) (now : String) : List TeamScore :=
  (batchesOf5 teams).foldl
    (fun acc batch =>
      acc ++ batch.map (fun t => analyzeRepo t.id t.name t.repo t.track (fetch t) (ai t) now))
    []

/-- Commentary events emitted by the refresh orchestrator; the LLM text of
`generateHypeCommentary` is abstracted to the event kind and its inputs. -/
inductive HypeEvent where
  | rankChange (team : String) (oldRank newRank : Int)
  | scoreUpdate (team : String) (score : Int)
  | teamCommentary (msg : String)
deriving Repr, DecidableEq

/-- Event-emission step of `handleRefresh` for one new record
(`app/api/refresh/route.ts` lines 57-83): look up the previous record by
`teamId`, emit a rank-change event when both ranks are truthy and the new
rank is strictly smaller, a score-update event when the total changed and the
new total is positive, and the record's own commentary when it is non-empty
and the new total is positive. -/
def teamEvents (previousScores : List TeamScore) (newScore : TeamScore) : List HypeEvent :=
  let oldScore := previousScores.find? (fun s => s.teamId = newScore.teamId)
  let rankEvents : List HypeEvent :=
    match oldScore with
    | some old =>
      match old.currentRank, newScore.currentRank with
      | some oldRank, some newRank =>
        if oldRank ≠ 0 ∧ newRank ≠ 0 then
          if newRank < oldRank then [.rankChange newScore.teamName oldRank newRank] else []
        else []
      | _, _ => []
    | none => []
  let scoreEvents : List HypeEvent :=
    match oldScore with
    | some old =>
      if old.total ≠ newScore.total ∧ newScore.total > 0 then
        [.scoreUpdate newScore.teamName newScore.total]
      else []
    | none => []
  let ownCommentary : List HypeEvent :=
    if newScore.commentary ≠ "" ∧ newScore.total > 0 then
      [.teamCommentary newScore.commentary]
    else []
  rankEvents ++ scoreEvents ++ ownCommentary

/-- Whether a rank-change event occurs in an event list. -/
def hasRankChange (events : List HypeEvent) : Bool :=
  events.any (fun e => match e with | .rankChange _ _ _ => true | _ => false)

/-- Whether a score-update event occurs in an event list. -/
def hasScoreUpdate (events : List HypeEvent) : Bool :=
  events.any (fun e => match e with | .scoreUpdate _ _ => true | _ => false)

/-- Whether a team-commentary event occurs in an event list. -/
def hasTeamCommentary (events : List HypeEvent) : Bool :=
  events.any (fun e => match e with | .teamCommentary _ => true | _ => false)

/-- Result of one refresh pass: the new store contents, the emitted
commentary events, and the processed-team count of the response message. -/
structure RefreshOutcome where
  store : List ScoreRow
  events : List HypeEvent
  count : Nat
deriving Repr, DecidableEq

/-- Function `handleRefresh` (`app/api/refresh/route.ts` lines 34-97): read previous
scores, analyze all teams in batches, save the new scores (mutating the
record objects with their ranks), then emit events per record of the mutated
array. -/
def handleRefresh (teams : List Team) (store : List ScoreRow)
    (fetch : Team → FetchOutcome) (ai : Team → AIOutcome) (now : String) : RefreshOutcome :=
  let previousScores := getScores store
  let newScores := refreshAnalyze teams fetch ai now
  let saved := saveScores store newScores now
  let events := saved.1.foldl (fun acc newScore => acc ++ teamEvents previousScores newScore) []
  { store := saved.2, events := events, count := saved.1.length }

/-- Commentary buffer entry (`lib/storage.ts`): message and ISO timestamp. -/
structure CommentaryEntry where
  message : String
  timestamp : String
deriving Repr, DecidableEq

/-- Function `addCommentary` (`lib/storage.ts` lines 119-130): prepend the entry, then
truncate to the most recent 50 when the buffer exceeds 50. -/
def addCommentary (entry : CommentaryEntry) (cached : List CommentaryEntry) :
    List CommentaryEntry :=
  let l := entry :: cached
  if l.length > 50 then l.take 50 else l

/-- Function `getCommentary` (`lib/storage.ts` lines 115-117): most-recent-first,
truncated to `limit`. -/
def getCommentary (limit : Nat) (cached : List CommentaryEntry) : List CommentaryEntry :=
  cached.take limit

/-- Environment of the refresh endpoints: the optional shared `CRON_SECRET`
and whether `NODE_ENV` is `production`. -/
structure RefreshEnv where
  cronSecret : Option String
  isProduction : Bool
deriving Repr, DecidableEq

/-- HTTP status of `handleRefresh`: 200 on success, 500 when the refresh
throws. -/
def handleRefreshStatus (refreshOk : Bool) : Nat :=
  if refreshOk then 200 else 500

/-- Endpoint `GET /api/refresh` (`app/api/refresh/route.ts` lines 17-28): when a
truthy `CRON_SECRET` is configured and the `Authorization` header does not
match `Bearer <secret>`, production requests get 401; otherwise the refresh
runs. -/
def refreshGET (env : RefreshEnv) (authHeader : Option String) (refreshOk : Bool) : Nat :=
  if jsOrStr env.cronSecret "" ≠ "" ∧ authHeader ≠ some ("Bearer " ++ jsOrStr env.cronSecret "") then
    if env.isProduction then 401 else handleRefreshStatus refreshOk
  else
    handleRefreshStatus refreshOk

/-- Endpoint `POST /api/refresh` (`app/api/refresh/route.ts` lines 30-32): no request
inspection at all — the handler runs unconditionally. -/
def refreshPOST (refreshOk : Bool) : Nat :=
  handleRefreshStatus refreshOk

/-- Sample team record used by concrete witness instances. -/
def sampleScore (id : String) (total : Int) (rank : Option Int) (commentary : String) :
    TeamScore :=
  { teamId := id
    teamName := id
    repo := "r"
    track := 1
    problem := 3
    solution := 3
    execution := 3
    total := total
    linesOfCode := 0
    commentary := commentary
    lastUpdated := "t"
    currentRank := rank }

/-- Sample empty repository snapshot used by concrete witness instances. -/
def sampleInfo : RepoInfo :=
  { readme := ""
    fileTree := []
    keyFiles := []
    recentCommits := []
    totalSize := 0
    branches := [] }

example : clampScore (some 9) = 5 := by decide
example : clampScore (some (-3)) = 1 := by decide
example : clampScore none = 3 := by decide
example : clampScoreDec (some 9) = 5 := by norm_num [clampScoreDec, jsRound, jsOrRat]
example : clampScoreDec none = 3 := by norm_num [clampScoreDec, jsRound, jsOrRat]
example : (getAIScores "Alpha" ⟨some 9, some 2, some 2, none⟩).total = 13 := by decide
example : (getAIScores "Alpha" ⟨some 9, some 2, some 2, none⟩).problem = 5 := by decide

/-- Helper: the integer clamp always lands in `[1, 5]`. -/
theorem clampScore_mem (v : Option Int) : 1 ≤ clampScore v ∧ clampScore v ≤ 5 := by
  unfold clampScore
  constructor
  · exact le_min (by norm_num) (le_max_left 1 _)
  · exact min_le_left 5 _

/-- Helper: the decimal clamp always lands in `[1, 5]`. -/
theorem clampScoreDec_mem (v : Option Rat) : 1 ≤ clampScoreDec v ∧ clampScoreDec v ≤ 5 := by
  unfold clampScoreDec jsRound
  have h1 : (1 : Rat) ≤ min 5 (max 1 (jsOrRat v 3)) :=
    le_min (by norm_num) (le_max_left 1 _)
  have h5 : min 5 (max 1 (jsOrRat v 3)) ≤ 5 := min_le_left 5 _
  set q : Rat := min 5 (max 1 (jsOrRat v 3)) with hq
  have hlo : (10 : Int) ≤ Int.floor (q * 10 + 1/2) := by
    rw [Int.le_floor]
    push_cast
    nlinarith
  have hhi : Int.floor (q * 10 + 1/2) ≤ 50 := by
    have : q * 10 + 1/2 ≤ 50 + 1/2 := by nlinarith
    calc Int.floor (q * 10 + 1/2) ≤ Int.floor ((50 : Rat) + 1/2) := Int.floor_le_floor this
    _ = 50 := by norm_num [Int.floor_eq_iff]
  constructor
  · rw [le_div_iff₀ (by norm_num : (0:Rat) < 10)]
    calc (1 : Rat) * 10 = ((10 : Int) : Rat) := by norm_num
    _ ≤ _ := by exact_mod_cast hlo
  · rw [div_le_iff₀ (by norm_num : (0:Rat) < 10)]
    calc ((Int.floor (q * 10 + 1/2) : Rat)) ≤ ((50 : Int) : Rat) := by exact_mod_cast hhi
    _ = 5 * 10 := by norm_num

/-- C3: the Score Generator clamps every sub-score to `[1,5]` and defaults a
missing field to `3`; concretely `problem: 9` parses to exactly `5`,
`problem: -3` to exactly `1`, and a missing `solution` field to exactly `3`,
in both the integer variant (`getAIScores`) and the decimal variant
(`analyzeTrack`). -/
theorem scoreGenerator_clamps :
    (∀ v : Option Int, 1 ≤ clampScore v ∧ clampScore v ≤ 5) ∧
    (∀ v : Option Rat, 1 ≤ clampScoreDec v ∧ clampScoreDec v ≤ 5) ∧
    clampScore (some 9) = 5 ∧ clampScore (some (-3)) = 1 ∧ clampScore none = 3 ∧
    (∀ teamName p e c, (getAIScores teamName ⟨p, none, e, c⟩).solution = 3) ∧
    clampScoreDec (some 9) = 5 ∧ clampScoreDec (some (-3)) = 1 ∧ clampScoreDec none = 3 := by
  have hd9 : clampScoreDec (some 9) = 5 := by norm_num [clampScoreDec, jsRound, jsOrRat]
  have hd3 : clampScoreDec (some (-3)) = 1 := by norm_num [clampScoreDec, jsRound, jsOrRat]
  have hdn : clampScoreDec none = 3 := by norm_num [clampScoreDec, jsRound, jsOrRat]
  refine ⟨clampScore_mem, clampScoreDec_mem, by decide, by decide, by decide, ?_, hd9, hd3, hdn⟩
  intro teamName p e c
  simp [getAIScores, clampScore, jsOrInt]

/-- C1 (code bug): in `getAIScores` the stored sub-scores are clamped but
`total` is the sum of the raw defaulted values, so on the parsed response
`problem: 9, solution: 2, execution: 2` the record stores
`problem = 5, solution = 2, execution = 2` yet `total = 13 ≠ 5 + 2 + 2`;
and on `problem: 99` the total `103` even falls outside `[3, 15]`. -/
theorem total_ne_sum_of_clamped :
    (getAIScores "Alpha" ⟨some 9, some 2, some 2, none⟩).problem = 5 ∧
    (getAIScores "Alpha" ⟨some 9, some 2, some 2, none⟩).solution = 2 ∧
    (getAIScores "Alpha" ⟨some 9, some 2, some 2, none⟩).execution = 2 ∧
    (getAIScores "Alpha" ⟨some 9, some 2, some 2, none⟩).total = 13 ∧
    (getAIScores "Alpha" ⟨some 9, some 2, some 2, none⟩).total ≠
      (getAIScores "Alpha" ⟨some 9, some 2, some 2, none⟩).problem +
      (getAIScores "Alpha" ⟨some 9, some 2, some 2, none⟩).solution +
      (getAIScores "Alpha" ⟨some 9, some 2, some 2, none⟩).execution ∧
    (getAIScores "Alpha" ⟨some 99, some 2, some 2, none⟩).total = 103 ∧
    ¬ (getAIScores "Alpha" ⟨some 99, some 2, some 2, none⟩).total ≤ 15 := by
  refine ⟨by decide, by decide, by decide, by decide, by decide, by decide, by decide⟩

/-- Helper: the descending-by-total comparison is transitive. -/
theorem rowLE_trans : ∀ a b c : ScoreRow, rowLE a b → rowLE b c → rowLE a c := by
  intro a b c
  simp [rowLE]
  omega

/-- Helper: the descending-by-total comparison is total. -/
theorem rowLE_total : ∀ a b : ScoreRow, rowLE a b || rowLE b a := by
  intro a b
  simp [rowLE]
  omega

/-- C4 (amended): the store read assigns `currentRank := index + 1` over
whatever row order the database delivers, so for every delivery permitted by
the order-by-total-descending select contract the returned list is sorted
descending by `total` and its `currentRank` values are exactly the
contiguous sequence `1..N`; the tie order among equal totals is the
database's delivery order — the source performs no client-side sort, so
there is no stable-tie guarantee — and the deterministic pipeline model
`getScores` is the mapping applied to one such permitted delivery. -/
theorem getScores_sorted_and_ranked (table delivered : List ScoreRow)
    (hdb : dbOrderedSelect table delivered) :
    ((rankDelivered delivered).map (fun s => s.currentRank)
      = (List.range table.length).map (fun (i : Nat) => some ((i : Int) + 1))) ∧
    ((rankDelivered delivered).Pairwise (fun a b => b.total ≤ a.total)) ∧
    (∀ store : List ScoreRow, getScores store = rankDelivered (sortRows store)) ∧
    (∀ store : List ScoreRow, dbOrderedSelect store (sortRows store)) := by
  refine ⟨?_, ?_, fun store => rfl, ?_⟩
  · have h1 : (rankDelivered delivered).map (fun s => s.currentRank)
        = delivered.enum.map (fun p => some ((p.1 : Int) + 1)) := by
      simp [rankDelivered, List.map_map, Function.comp_def]
    have h2 : (delivered.enum.map (fun p => some ((p.1 : Int) + 1)))
        = (delivered.enum.map Prod.fst).map (fun (i : Nat) => some ((i : Int) + 1)) := by
      rw [List.map_map]
      rfl
    rw [h1, h2, List.enum_map_fst, hdb.1.length_eq]
  · unfold rankDelivered
    rw [List.pairwise_map]
    have h2 : (delivered.enum.map Prod.snd).Pairwise
        (fun a b : ScoreRow => b.total ≤ a.total) := by
      rw [List.enum_map_snd]
      exact hdb.2
    exact List.pairwise_map.mp h2
  · intro store
    refine ⟨List.mergeSort_perm store rowLE, ?_⟩
    exact (@List.sorted_mergeSort ScoreRow rowLE rowLE_trans rowLE_total store).imp
      (by simp [rowLE])

/-- Witness for C4: a two-row table with a tie on total `7`, delivered by
the database in the opposite of insertion order; the read is still sorted
with ranks `1, 2`. -/
theorem getScores_sorted_and_ranked_witness :
    (rankDelivered [sampleRow "b" 7, sampleRow "a" 7]).map (fun s => s.currentRank)
      = [some 1, some 2] := by
  have h := getScores_sorted_and_ranked [sampleRow "a" 7, sampleRow "b" 7]
    [sampleRow "b" 7, sampleRow "a" 7] ⟨by decide, by decide⟩
  rw [h.1]
  rfl

/-- Counterexample for C4: a delivery permitted by the select contract in
which two rows with equal totals come back in the opposite of their prior
relative order, and the read hands the ranks out in exactly that delivered
order — the claimed stable-tie guarantee does not hold. -/
theorem getScores_stable_ties_counterexample :
    dbOrderedSelect [sampleRow "a" 7, sampleRow "b" 7] [sampleRow "b" 7, sampleRow "a" 7] ∧
    ((rankDelivered [sampleRow "b" 7, sampleRow "a" 7]).map (fun s => s.teamId)
      = ["b", "a"]) ∧
    ((["b", "a"] : List String) ≠ ["a", "b"]) := by
  refine ⟨⟨by decide, by decide⟩, by decide, by decide⟩

/-- Helper: one `addCommentary` step on a buffer within capacity is a
truncating cons. -/
theorem addCommentary_eq_take (entry : CommentaryEntry) (st : List CommentaryEntry) :
    addCommentary entry st = (entry :: st).take 50 := by
  unfold addCommentary
  by_cases hlen : (entry :: st).length > 50
  · simp [hlen]
  · simp only [hlen, if_false]
    rw [List.take_of_length_le]
    omega

/-- Helper: truncating the right summand before an append does not change a
truncated append. -/
theorem take_append_take {α : Type} (n : Nat) (l m : List α) :
    (l ++ m.take n).take n = (l ++ m).take n := by
  rw [List.take_append_eq_append_take, List.take_append_eq_append_take, List.take_take]
  congr 1
  rw [Nat.min_eq_left]
  omega

/-- Helper: folding `addCommentary` over messages keeps the 50 most recent,
most-recent-first. -/
theorem foldl_addCommentary (entries : List CommentaryEntry) :
    ∀ (st : List CommentaryEntry), st.length ≤ 50 →
      entries.foldl (fun acc e => addCommentary e acc) st = (entries.reverse ++ st).take 50 := by
  induction entries with
  | nil =>
    intro st h
    simp [List.take_of_length_le, h]
  | cons e es ih =>
    intro st h
    have hstep : addCommentary e st = (e :: st).take 50 := addCommentary_eq_take e st
    have hlen : (addCommentary e st).length ≤ 50 := by
      rw [hstep]
      simp
    calc (e :: es).foldl (fun acc x => addCommentary x acc) st
        = es.foldl (fun acc x => addCommentary x acc) (addCommentary e st) := rfl
    _ = (es.reverse ++ addCommentary e st).take 50 := ih _ hlen
    _ = (es.reverse ++ (e :: st).take 50).take 50 := by rw [hstep]
    _ = (es.reverse ++ (e :: st)).take 50 := take_append_take 50 _ _
    _ = ((e :: es).reverse ++ st).take 50 := by simp

/-- C8: starting from the empty buffer, any sequence of `addCommentary`
calls leaves exactly the (at most) 50 most recent entries in
most-recent-first order — so the buffer never exceeds 50 entries and evicts
oldest-first — and `getCommentary limit` returns the most-recent-first
entries truncated to `limit`. -/
theorem commentary_ring_buffer :
    (∀ entries : List CommentaryEntry,
      entries.foldl (fun acc e => addCommentary e acc) [] = entries.reverse.take 50) ∧
    (∀ entries : List CommentaryEntry,
      (entries.foldl (fun acc e => addCommentary e acc) []).length ≤ 50) ∧
    (∀ (limit : Nat) (cached : List CommentaryEntry),
      getCommentary limit cached = cached.take limit) := by
  have hmain : ∀ entries : List CommentaryEntry,
      entries.foldl (fun acc e => addCommentary e acc) [] = entries.reverse.take 50 := by
    intro entries
    rw [foldl_addCommentary entries [] (by simp)]
    simp
  refine ⟨hmain, ?_, fun limit cached => rfl⟩
  intro entries
  rw [hmain entries]
  simp

/-- C7: the size estimator equals the specified formula, always returns a
non-negative integer, returns `0` on an empty file list, is floored at
`countOfCodeFiles * 50` when `totalBytes = 0`, and is monotonically
non-decreasing in `totalBytes` for a fixed file list. -/
theorem estimator_correct :
    (∀ (fileTree : List String) (totalBytes : Rat),
      estimateLinesOfCode fileTree totalBytes = estimateSpecFormula fileTree totalBytes) ∧
    (∀ (fileTree : List String) (totalBytes : Rat),
      0 ≤ estimateLinesOfCode fileTree totalBytes) ∧
    (∀ totalBytes : Rat, estimateLinesOfCode [] totalBytes = 0) ∧
    (∀ fileTree : List String,
      (countCodeFiles fileTree : Int) * 50 ≤ estimateLinesOfCode fileTree 0) ∧
    (∀ (fileTree : List String) (b1 b2 : Rat), b1 ≤ b2 →
      estimateLinesOfCode fileTree b1 ≤ estimateLinesOfCode fileTree b2) := by
  refine ⟨fun fileTree totalBytes => rfl, ?_, ?_, ?_, ?_⟩
  · intro fileTree totalBytes
    calc (0 : Int) ≤ (countCodeFiles fileTree : Int) * 50 := by positivity
    _ ≤ _ := le_max_right _ _
  · intro totalBytes
    simp [estimateLinesOfCode, countCodeFiles, jsRound]
    norm_num
  · intro fileTree
    exact le_max_right _ _
  · intro fileTree b1 b2 hb
    unfold estimateLinesOfCode jsRound
    have hr : (0 : Rat) ≤ (countCodeFiles fileTree : Rat) / (max fileTree.length 1 : Nat) := by
      positivity
    have hmul : b1 * ((countCodeFiles fileTree : Rat) / (max fileTree.length 1 : Nat)) / 25
        ≤ b2 * ((countCodeFiles fileTree : Rat) / (max fileTree.length 1 : Nat)) / 25 := by
      apply div_le_div_of_nonneg_right ?_ (by norm_num)
      exact mul_le_mul_of_nonneg_right hb hr
    exact max_le_max (Int.floor_le_floor (by linarith)) (le_refl _)

/-- Witness for C7: the estimator at a concrete one-file tree, instantiating
the monotonicity hypothesis at `10 ≤ 20`. -/
theorem estimator_correct_witness :
    estimateLinesOfCode ["a.ts"] 10 ≤ estimateLinesOfCode ["a.ts"] 20 :=
  estimator_correct.2.2.2.2 ["a.ts"] 10 20 (by norm_num)

/-- C10: `POST /api/refresh` runs the refresh unconditionally and can never
answer 401 in any environment, while `GET /api/refresh` does answer 401 in
production when a secret is configured and the `Authorization` header does
not match. -/
theorem refreshPOST_never_401 :
    (∀ ok : Bool, refreshPOST ok ≠ 401) ∧
    (∀ ok : Bool, refreshPOST ok = handleRefreshStatus ok) ∧
    (∀ (secret : String) (authHeader : Option String) (ok : Bool),
      secret ≠ "" → authHeader ≠ some ("Bearer " ++ secret) →
      refreshGET ⟨some secret, true⟩ authHeader ok = 401) := by
  refine ⟨?_, fun ok => rfl, ?_⟩
  · intro ok
    cases ok <;> simp [refreshPOST, handleRefreshStatus]
  · intro secret authHeader ok hsec hhdr
    simp [refreshGET, jsOrStr, hsec, hhdr]

/-- Witness for C10: in production with secret `"s"` configured and no
`Authorization` header, GET answers 401 while POST does not. -/
theorem refreshPOST_never_401_witness :
    refreshGET ⟨some "s", true⟩ none true = 401 ∧ refreshPOST true ≠ 401 :=
  ⟨refreshPOST_never_401.2.2 "s" none true (by decide) (by decide),
   refreshPOST_never_401.1 true⟩

/-- Helper: the batches of size 5 flatten back to the full roster. -/
theorem batchesOf5_flatten : ∀ (teams : List Team), (batchesOf5 teams).flatten = teams
  | [] => by simp [batchesOf5]
  | t :: rest => by
    rw [batchesOf5]
    rw [List.flatten_cons]
    rw [batchesOf5_flatten ((t :: rest).drop 5)]
    exact List.take_append_drop 5 (t :: rest)
termination_by l => l.length
decreasing_by simp; omega

/-- Helper: folding list appends equals a flattened map. -/
theorem foldl_append_map {α β : Type} (g : α → List β) :
    ∀ (l : List α) (init : List β),
      l.foldl (fun acc b => acc ++ g b) init = init ++ (l.map g).flatten := by
  intro l
  induction l with
  | nil => intro init; simp
  | cons x xs ih =>
    intro init
    simp only [List.foldl_cons, List.map_cons, List.flatten_cons]
    rw [ih]
    simp

/-- C6 (amended): no single team's failure aborts its batch or the run —
every roster entry yields exactly one record whatever the per-team outcomes
are — a snapshot-fetch failure yields the all-zero placeholder record with
the canned waiting commentary, and a score-generation failure yields the
neutral `3/3/3` record with total `9` (not zeros). -/
theorem refresh_processes_every_team (teams : List Team) (fetch : Team → FetchOutcome)
    (ai : Team → AIOutcome) (now : String) :
    (refreshAnalyze teams fetch ai now
      = teams.map (fun t => analyzeRepo t.id t.name t.repo t.track (fetch t) (ai t) now)) ∧
    ((refreshAnalyze teams fetch ai now).length = teams.length) ∧
    (∀ (tid tname repoUrl : String) (track : Int) (msg : String) (aiRes : AIOutcome),
      analyzeRepo tid tname repoUrl track (.fail msg) aiRes now
        = createPlaceholderScore tid tname repoUrl track now) ∧
    (∀ (tid tname repoUrl : String) (track : Int),
      (createPlaceholderScore tid tname repoUrl track now).problem = 0 ∧
      (createPlaceholderScore tid tname repoUrl track now).solution = 0 ∧
      (createPlaceholderScore tid tname repoUrl track now).execution = 0 ∧
      (createPlaceholderScore tid tname repoUrl track now).total = 0 ∧
      (createPlaceholderScore tid tname repoUrl track now).commentary
        = "Waiting for " ++ tname ++ " to push their first commit!") ∧
    (∀ (tid tname repoUrl : String) (track : Int) (info : RepoInfo) (msg : String),
      (analyzeRepo tid tname repoUrl track (.ok info) (.fail msg) now).problem = 3 ∧
      (analyzeRepo tid tname repoUrl track (.ok info) (.fail msg) now).solution = 3 ∧
      (analyzeRepo tid tname repoUrl track (.ok info) (.fail msg) now).execution = 3 ∧
      (analyzeRepo tid tname repoUrl track (.ok info) (.fail msg) now).total = 9) := by
  have hmap : refreshAnalyze teams fetch ai now
      = teams.map (fun t => analyzeRepo t.id t.name t.repo t.track (fetch t) (ai t) now) := by
    unfold refreshAnalyze
    rw [foldl_append_map]
    rw [List.nil_append]
    rw [← List.map_flatten]
    rw [batchesOf5_flatten]
  refine ⟨hmap, by rw [hmap]; simp, ?_, ?_, ?_⟩
  · intro tid tname repoUrl track msg aiRes
    rfl
  · intro tid tname repoUrl track
    refine ⟨rfl, rfl, rfl, rfl, rfl⟩
  · intro tid tname repoUrl track info msg
    refine ⟨?_, ?_, ?_, ?_⟩ <;> simp [analyzeRepo, neutralScores]

/-- Counterexample for C6: on a score-generation failure the substituted
record is the neutral `3/3/3` (total `9`) record, not the claimed all-zero
record. -/
theorem scoreFailure_not_zero_counterexample :
    (analyzeRepo "t1" "Alpha" "url" 1 (.ok sampleInfo) (.fail "LLM call failed") "t").problem = 3 ∧
    (analyzeRepo "t1" "Alpha" "url" 1 (.ok sampleInfo) (.fail "LLM call failed") "t").total = 9 ∧
    ((3 : Int) ≠ 0) := by
  refine ⟨?_, ?_, by decide⟩ <;> simp [analyzeRepo, neutralScores]

/-- Helper: the comparator of `saveScores` is transitive. -/
theorem scoreLE_trans : ∀ a b c : Nat × TeamScore, scoreLE a b → scoreLE b c → scoreLE a c := by
  intro a b c
  simp [scoreLE]
  omega

/-- Helper: the comparator of `saveScores` is total. -/
theorem scoreLE_total : ∀ a b : Nat × TeamScore, scoreLE a b || scoreLE b a := by
  intro a b
  simp [scoreLE]
  omega

/-- Helper: in a list of pairs with distinct first components, searching for
the first component of the `k`-th element finds position `k`. -/
theorem findIdx_fst_getElem {α : Type} :
    ∀ (l : List (Nat × α)), (l.map Prod.fst).Nodup →
      ∀ (k : Nat) (hk : k < l.length),
        l.findIdx (fun q => q.1 = (l.get ⟨k, hk⟩).1) = k := by
  intro l
  induction l with
  | nil => intro _ k hk; simp at hk
  | cons x xs ih =>
    intro hnd k hk
    simp only [List.map_cons, List.nodup_cons] at hnd
    cases k with
    | zero => simp [List.findIdx_cons]
    | succ k =>
      have hk2 : k < xs.length := by simpa using hk
      have hmem : (xs.get ⟨k, hk2⟩).1 ∈ xs.map Prod.fst :=
        List.mem_map_of_mem Prod.fst (xs.get_mem _ _)
      have hne : ¬ (x.1 = (xs.get ⟨k, hk2⟩).1) := by
        intro h
        exact hnd.1 (h ▸ hmem)
      have hget : ((x :: xs).get ⟨k + 1, hk⟩) = xs.get ⟨k, hk2⟩ := rfl
      rw [hget, List.findIdx_cons]
      have ih2 := ih hnd.2 k hk2
      rw [List.get_eq_getElem] at ih2
      rw [List.get_eq_getElem] at hne
      simp only [List.get_eq_getElem, decide_eq_false hne, cond_false]
      rw [ih2]

/-- Helper: the position tags of the stable sort in `saveScores` are
pairwise distinct. -/
theorem sortedEnum_fst_nodup (scores : List TeamScore) :
    ((scores.enum.mergeSort scoreLE).map Prod.fst).Nodup := by
  have hperm : List.Perm ((scores.enum.mergeSort scoreLE).map Prod.fst)
      (scores.enum.map Prod.fst) :=
    (List.mergeSort_perm scores.enum scoreLE).map Prod.fst
  have hnd : (scores.enum.map Prod.fst).Nodup := by
    rw [List.enum_map_fst]
    exact List.nodup_range _
  exact hperm.nodup_iff.mpr hnd

/-- Helper: the caller-array component of `saveScores`, unfolded. -/
theorem saveScores_fst (store : List ScoreRow) (scores : List TeamScore) (now : String) :
    (saveScores store scores now).1
      = scores.enum.map (fun p =>
          { p.2 with currentRank := some (((scores.enum.mergeSort scoreLE).findIdx (fun q => q.1 = p.1) : Int) + 1) }) :=
  rfl

/-- Helper: mapping a function of the element over an enumeration ignores
the indices. -/
theorem enum_map_snd_comp {α β : Type} (g : α → β) (l : List α) :
    l.enum.map (fun p => g p.2) = l.map g := by
  rw [show (fun p : Nat × α => g p.2) = (g ∘ Prod.snd) from rfl]
  rw [← List.map_map, List.enum_map_snd]

/-- C2 (amended): `saveScores` recomputes `currentRank` through the same
descending-by-total stable sort used on read and writes it into the caller's
records, but it never reads the store's prior state for the incoming
records and never sets `previousRank` (the upsert payload carries no rank
fields at all), so after any save — in particular a second refresh —
`previousRank` is whatever the caller passed in, not the prior
`currentRank`. -/
theorem saveScores_never_sets_previousRank (store : List ScoreRow) (scores : List TeamScore)
    (now : String) :
    ((saveScores store scores now).1.map (fun s => s.previousRank)
      = scores.map (fun s => s.previousRank)) ∧
    ((saveScores store scores now).1 = (saveScores [] scores now).1) ∧
    ((scores.enum.mergeSort scoreLE).Pairwise (fun a b => b.2.total ≤ a.2.total)) ∧
    (∀ (k : Nat) (hk : k < (scores.enum.mergeSort scoreLE).length)
        (hi : ((scores.enum.mergeSort scoreLE).get ⟨k, hk⟩).1 < (saveScores store scores now).1.length),
      ((saveScores store scores now).1.get
          ⟨((scores.enum.mergeSort scoreLE).get ⟨k, hk⟩).1, hi⟩).currentRank
        = some ((k : Int) + 1)) ∧
    (∀ (s : TeamScore) (pr cr : Option Int),
      toScoreRow { s with previousRank := pr, currentRank := cr } now = toScoreRow s now) := by
  refine ⟨?_, rfl, ?_, ?_, ?_⟩
  · rw [saveScores_fst, List.map_map]
    exact enum_map_snd_comp (fun s => s.previousRank) scores
  · have hs := @List.sorted_mergeSort (Nat × TeamScore) scoreLE scoreLE_trans scoreLE_total scores.enum
    exact hs.imp (by simp [scoreLE])
  · intro k hk hi
    have hfind : (scores.enum.mergeSort scoreLE).findIdx
        (fun q => q.1 = ((scores.enum.mergeSort scoreLE).get ⟨k, hk⟩).1) = k :=
      findIdx_fst_getElem (scores.enum.mergeSort scoreLE) (sortedEnum_fst_nodup scores) k hk
    show ((scores.enum.map (fun p : Nat × TeamScore =>
        { p.2 with currentRank := some (((scores.enum.mergeSort scoreLE).findIdx (fun q : Nat × TeamScore => q.1 = p.1) : Int) + 1) })).get
        ⟨((scores.enum.mergeSort scoreLE).get ⟨k, hk⟩).1, hi⟩).currentRank = some ((k : Int) + 1)
    rw [List.get_eq_getElem, List.getElem_map, List.getElem_enum]
    simp only [hfind]
  · intro s pr cr
    rfl

/-- Witness for C2: saving a single fresh record over a store that already
holds a row for the team; the saved record gets `currentRank = 1`, and (per
the counterexample) its `previousRank` stays `none`. -/
theorem saveScores_never_sets_previousRank_witness :
    ((saveScores [sampleRow (teamIdToUUID "team-1") 9] [sampleScore "team-1" 12 none "c"] "t2").1.get
        ⟨((([sampleScore "team-1" 12 none "c"].enum.mergeSort scoreLE).get
            ⟨0, by simp⟩).1),
         by simp [saveScores_fst, List.mergeSort_singleton, List.enum]⟩).currentRank
      = some 1 :=
  (saveScores_never_sets_previousRank [sampleRow (teamIdToUUID "team-1") 9]
    [sampleScore "team-1" 12 none "c"] "t2").2.2.2.1 0 (by simp)
    (by simp [saveScores_fst, List.mergeSort_singleton, List.enum])

/-- Counterexample for C2: a prior record for the team exists with
`currentRank = 1`, yet after the second save the stored record's
`previousRank` is `none`, not `some 1`. -/
theorem saveScores_previousRank_counterexample :
    ((getScores [sampleRow (teamIdToUUID "team-1") 9]).map (fun s => s.currentRank)
      = [some 1]) ∧
    ((saveScores [sampleRow (teamIdToUUID "team-1") 9] [sampleScore "team-1" 12 none "c"] "t2").1.map
        (fun s => s.previousRank) = [none]) ∧
    ((none : Option Int) ≠ some 1) := by
  refine ⟨?_, ?_, by decide⟩
  · simp [getScores, sortRows, List.mergeSort_singleton, List.enum]
  · simp [saveScores, List.enum, sampleScore]

/-- C9: `saveScores` mutates the caller's record objects in place: the
caller's array keeps its order and every non-rank field, while each record's
`currentRank` becomes its 1-based position in the stable descending-by-total
sort; and the refresh orchestrator computes its events from exactly this
mutated array after the save. -/
theorem saveScores_mutates_caller_records (store : List ScoreRow) (scores : List TeamScore)
    (now : String) :
    ((saveScores store scores now).1.map (fun s => { s with currentRank := none })
      = scores.map (fun s => { s with currentRank := none })) ∧
    (∀ (i : Nat) (hi : i < (saveScores store scores now).1.length) (hj : i < scores.length),
      (saveScores store scores now).1.get ⟨i, hi⟩
        = { scores.get ⟨i, hj⟩ with currentRank := some (((scores.enum.mergeSort scoreLE).findIdx (fun q => q.1 = i) : Int) + 1) }) ∧
    (∀ (teams : List Team) (fetch : Team → FetchOutcome) (ai : Team → AIOutcome),
      (handleRefresh teams store fetch ai now).events
        = (saveScores store (refreshAnalyze teams fetch ai now) now).1.foldl
            (fun acc newScore => acc ++ teamEvents (getScores store) newScore) []) := by
  refine ⟨?_, ?_, ?_⟩
  · rw [saveScores_fst, List.map_map]
    exact enum_map_snd_comp (fun s => { s with currentRank := none }) scores
  · intro i hi hj
    rw [List.get_of_eq (saveScores_fst store scores now)]
    rw [List.get_eq_getElem, List.getElem_map, List.getElem_enum]
    rw [List.get_eq_getElem]
  · intro teams fetch ai
    rfl

/-- Witness for C9: a singleton save; the single caller record comes back
with its rank written into `currentRank`. -/
theorem saveScores_mutates_caller_records_witness :
    (saveScores [] [sampleScore "t1" 9 none "c"] "t").1.get ⟨0, by simp [saveScores_fst]⟩
      = { sampleScore "t1" 9 none "c" with currentRank := some ((([sampleScore "t1" 9 none "c"].enum.mergeSort scoreLE).findIdx (fun q => q.1 = 0) : Int) + 1) } :=
  (saveScores_mutates_caller_records [] [sampleScore "t1" 9 none "c"] "t").2.1 0
    (by simp [saveScores_fst]) (by simp)

/-- C5 (amended): within one refresh pass, for a team whose previous record
is found and whose ranks are assigned (as the store always assigns them,
1-based), the rank-change event fires iff the new rank is numerically lower,
the score-update event fires iff the total changed and the new total is
positive (the code tests `total > 0`, which differs from the claimed
"nonzero" on reachable negative totals), the team's own commentary is
appended iff it is non-empty and the new total is positive, and the three
conditions are independent: all three can fire for the same team. -/
theorem refresh_event_conditions (previousScores : List TeamScore) (newScore old : TeamScore)
    (oldR newR : Int)
    (hfind : previousScores.find? (fun s => s.teamId = newScore.teamId) = some old)
    (hor : old.currentRank = some oldR) (hnr : newScore.currentRank = some newR)
    (h1 : 1 ≤ oldR) (h2 : 1 ≤ newR) :
    (hasRankChange (teamEvents previousScores newScore) ↔ newR < oldR) ∧
    (hasScoreUpdate (teamEvents previousScores newScore) ↔
      (old.total ≠ newScore.total ∧ newScore.total > 0)) ∧
    (hasTeamCommentary (teamEvents previousScores newScore) ↔
      (newScore.commentary ≠ "" ∧ newScore.total > 0)) ∧
    (∃ (prevL : List TeamScore) (ns : TeamScore),
      hasRankChange (teamEvents prevL ns) ∧ hasScoreUpdate (teamEvents prevL ns) ∧
      hasTeamCommentary (teamEvents prevL ns)) := by
  have hne1 : oldR ≠ 0 := by omega
  have hne2 : newR ≠ 0 := by omega
  refine ⟨?_, ?_, ?_, ?_⟩
  · simp only [teamEvents, hfind, hor, hnr, hasRankChange, List.any_append, List.any_cons,
      List.any_nil]
    split_ifs <;> simp_all
  · simp only [teamEvents, hfind, hor, hnr, hasScoreUpdate, List.any_append, List.any_cons,
      List.any_nil]
    split_ifs <;> simp_all
  · simp only [teamEvents, hfind, hor, hnr, hasTeamCommentary, List.any_append, List.any_cons,
      List.any_nil]
    split_ifs <;> simp_all
  · refine ⟨[sampleScore "t1" 9 (some 2) "old"], sampleScore "t1" 12 (some 1) "Go", ?_, ?_, ?_⟩ <;> decide

/-- Counterexample for C5: a reachable record with a negative total — the
raw-sum path of `getAIScores` yields total `-45` on an all-`-15` parsed
response — whose total changed and is nonzero, yet the refresh emits no
score-update event, because the code requires `total > 0`, not merely
nonzero. -/
theorem scoreUpdate_requires_positive_counterexample :
    (getAIScores "A" ⟨some (-15), some (-15), some (-15), none⟩).total = -45 ∧
    (sampleScore "t1" 9 (some 1) "old").total ≠ (sampleScore "t1" (-45) (some 1) "c").total ∧
    (sampleScore "t1" (-45) (some 1) "c").total ≠ 0 ∧
    hasScoreUpdate (teamEvents [sampleScore "t1" 9 (some 1) "old"]
      (sampleScore "t1" (-45) (some 1) "c")) = false := by
  refine ⟨by decide, by decide, by decide, by decide⟩

/-- Witness for C5: a single team whose score changed from 9 to 12 while its
rank stayed 1 — no rank-change event fires, but a score-update event does,
and the non-empty team commentary is appended. -/
theorem refresh_event_conditions_witness :
    hasScoreUpdate (teamEvents [sampleScore "t1" 9 (some 1) "old"]
      (sampleScore "t1" 12 (some 1) "Nice work")) = true ∧
    hasRankChange (teamEvents [sampleScore "t1" 9 (some 1) "old"]
      (sampleScore "t1" 12 (some 1) "Nice work")) = false ∧
    hasTeamCommentary (teamEvents [sampleScore "t1" 9 (some 1) "old"]
      (sampleScore "t1" 12 (some 1) "Nice work")) = true := by
  have h := refresh_event_conditions [sampleScore "t1" 9 (some 1) "old"]
    (sampleScore "t1" 12 (some 1) "Nice work") (sampleScore "t1" 9 (some 1) "old") 1 1
    (by decide) (by decide) (by decide) (by decide) (by decide)
  refine ⟨h.2.1.mpr (by decide), ?_, h.2.2.1.mpr (by decide)⟩
  rw [Bool.eq_false_iff]
  intro hc
  exact absurd (h.1.mp hc) (by decide)
